import Mathlib

/-!
Verification of the conversation-session and inference-proxy component of the
AI-Dashboard repository (`src/routes/ai.py`), shallowly embedded in Lean 4.

The module-level dictionary `conversation_cache` is modelled as an association
list from user identities to transcripts; Python dict membership, read and
assignment become `findEntry` / `setEntry`.  The `chat_api` Flask handler is
modelled as a function of the cache state, the authenticated user, the posted
message text, and the outcome of the single outbound HTTP call to the
inference endpoint (the only external effect); it returns the handler's
result together with the new cache state.
-/

set_option autoImplicit false

namespace AIDashboard

/-- The role tag of one chat turn (`'role'` field in `ai.py`). -/
inductive Role where
  | system
  | user
  | assistant
deriving DecidableEq, Repr

/-- One message dict `{'role': ..., 'content': ...}` as built in `ai.py`. -/
structure ChatTurn where
  role : Role
  content : String
deriving DecidableEq, Repr

/-- An ordered per-user conversation, one Python list held in the cache. -/
abbrev Transcript := List ChatTurn

/-- A user identity (`session['user_id']`). -/
abbrev UserId := String

/-- The module-level dict `conversation_cache`, as an association list in
insertion order. -/
abbrev Cache := List (UserId × Transcript)

/-- Python `user_id in conversation_cache` / `conversation_cache[user_id]`:
the first entry with the given key, if any. -/
def findEntry : Cache → UserId → Option Transcript
  | [], _ => none
  | (k, v) :: rest, u => if k = u then some v else findEntry rest u

/-- Python `conversation_cache[user_id] = t`: overwrite in place when the key
is present, append a new entry otherwise. -/
def setEntry : Cache → UserId → Transcript → Cache
  | [], u, t => [(u, t)]
  | (k, v) :: rest, u, t =>
      if k = u then (u, t) :: rest else (k, v) :: setEntry rest u t

/-- The transcript an observer reads for a user: the stored list, or empty
when the user has no entry (what `get_user_conversation` would return). -/
def transcriptOf (c : Cache) (u : UserId) : Transcript :=
  (findEntry c u).getD []

/-- `get_user_conversation` (ai.py lines 14-17): materialise an empty list for
an absent key, then return the entry.  Returns the transcript and the
possibly-extended cache. -/
def get_user_conversation (c : Cache) (u : UserId) : Transcript × Cache :=
  match findEntry c u with
  | some t => (t, c)
  | none => ([], setEntry c u [])

/-- `clear_user_conversation` (ai.py lines 19-21): reset the entry to the
empty list, only when the key is present. -/
def clear_user_conversation (c : Cache) (u : UserId) : Cache :=
  match findEntry c u with
  | some _ => setEntry c u []
  | none => c

/-- `MAX_MESSAGES` (ai.py line 109). -/
def MAX_MESSAGES : Nat := 24

/-- The system prompt text inserted at ai.py lines 72-75. -/
def systemPromptText : String :=
  "You are an expert AI assistant specialized in IoT dashboard design and development. You help users create modern, responsive IoT dashboards with focus on: data visualization (charts, graphs, real-time metrics), IoT device management, sensor data monitoring, user interface design, and best practices for dashboard architecture. Provide practical, actionable, and technical advice. Be concise but thorough."

/-- The synthesized system turn. -/
def systemTurn : ChatTurn := ⟨Role.system, systemPromptText⟩

/-- `messages` as sent upstream (ai.py lines 70-75): a copy of the
conversation *after* the user turn was appended, with the system turn
inserted at position 0 exactly when that copy has length 1 (i.e. the stored
conversation was empty before this request). -/
def requestMessages (conversationAfterAppend : Transcript) : Transcript :=
  if conversationAfterAppend.length = 1 then
    systemTurn :: conversationAfterAppend
  else
    conversationAfterAppend

/-- Ends-in-user test: the Python truthiness-plus-last-role guard
`conversation and conversation[-1]['role'] == 'user'`. -/
def endsInUser (t : Transcript) : Bool :=
  match t.getLast? with
  | some turn => turn.role == Role.user
  | none => false

/-- The rollback step repeated on every failure path of `chat_api`
(ai.py lines 119-121, 128-129, 137-138, 146-147, 156-157):
`if conversation and conversation[-1]['role'] == 'user': conversation.pop()`. -/
def rollbackLastUserTurn (t : Transcript) : Transcript :=
  match t.getLast? with
  | some turn => if turn.role = Role.user then t.dropLast else t
  | none => t

/-- Outcome of the outbound `requests.post` call to the inference endpoint:
an HTTP response with a status code and the extracted
`result['message']['content']` (defaulted to `''`), or one of the exception
classes caught in ai.py lines 135-161. -/
inductive InferOutcome where
  | response (status : Nat) (content : String)
  | timeout
  | connectionError
  | otherError (msg : String)
deriving DecidableEq, Repr

/-- The JSON result of the `chat_api` handler, one constructor per `return`
site in ai.py. -/
inductive ChatResult where
  | ok (resp : String)
  | invalidInput
  | emptyModelResponse
  | upstreamError (status : Nat)
  | timedOut
  | unreachable
  | internalError (msg : String)
deriving DecidableEq, Repr

/-- The HTTP status code `chat_api` attaches to each result. -/
def httpStatus : ChatResult → Nat
  | ChatResult.ok _ => 200
  | ChatResult.invalidInput => 400
  | ChatResult.emptyModelResponse => 500
  | ChatResult.upstreamError _ => 500
  | ChatResult.timedOut => 504
  | ChatResult.unreachable => 500
  | ChatResult.internalError _ => 500

/-- Whether the outcome is the one success path of ai.py (HTTP 200 with
non-empty content). -/
def InferOutcome.isSuccess : InferOutcome → Bool
  | InferOutcome.response status content => status == 200 && !(content == "")
  | _ => false

/-- The `chat_api` handler (ai.py lines 44-161), for an authenticated user.

Mutations of the Python list `conversation` alias the cache entry, so every
mutation is reflected by a `setEntry`; the truncation at lines 110-111
rebinds the entry to the sliced copy.  The empty-message check happens after
`get_user_conversation` has already run. -/
def chat_api (c : Cache) (u : UserId) (userMessage : String)
    (outcome : InferOutcome) : ChatResult × Cache :=
  let r := get_user_conversation c u
  let conversation := r.1
  let c := r.2
  if userMessage = "" then
    (ChatResult.invalidInput, c)
  else
    let conversation := conversation ++ [⟨Role.user, userMessage⟩]
    let c := setEntry c u conversation
    match outcome with
    | InferOutcome.response status content =>
        if status = 200 then
          if content = "" then
            (ChatResult.emptyModelResponse,
              setEntry c u (rollbackLastUserTurn conversation))
          else
            let conversation := conversation ++ [⟨Role.assistant, content⟩]
            let c := setEntry c u conversation
            let c :=
              if conversation.length > MAX_MESSAGES then
                setEntry c u
                  (conversation.drop (conversation.length - MAX_MESSAGES))
              else c
            (ChatResult.ok content, c)
        else
          (ChatResult.upstreamError status,
            setEntry c u (rollbackLastUserTurn conversation))
    | InferOutcome.timeout =>
        (ChatResult.timedOut, setEntry c u (rollbackLastUserTurn conversation))
    | InferOutcome.connectionError =>
        (ChatResult.unreachable,
          setEntry c u (rollbackLastUserTurn conversation))
    | InferOutcome.otherError msg =>
        (ChatResult.internalError msg,
          setEntry c u (rollbackLastUserTurn conversation))

/-- `clear_chat` handler (ai.py lines 164-172): delegates to
`clear_user_conversation`. -/
def clear_chat (c : Cache) (u : UserId) : Cache :=
  clear_user_conversation c u

/-- `get_chat_history` handler (ai.py lines 174-181): returns
`get_user_conversation`, including its entry-creating side effect. -/
def get_chat_history (c : Cache) (u : UserId) : Transcript × Cache :=
  get_user_conversation c u

/-! ### Basic lemmas about the cache and transcript operations -/

@[simp]
theorem findEntry_setEntry_self (c : Cache) (u : UserId) (t : Transcript) :
    findEntry (setEntry c u t) u = some t := by
  induction c with
  | nil => simp [findEntry, setEntry]
  | cons kv rest ih =>
      obtain ⟨k, v⟩ := kv
      by_cases h : k = u
      · simp [findEntry, setEntry, h]
      · simp [findEntry, setEntry, h, ih]

theorem findEntry_setEntry_ne (c : Cache) (u v : UserId) (t : Transcript)
    (h : v ≠ u) : findEntry (setEntry c u t) v = findEntry c v := by
  have h2 : ¬(u = v) := fun hh => h hh.symm
  induction c with
  | nil => simp [findEntry, setEntry, h2]
  | cons kv rest ih =>
      obtain ⟨k, w⟩ := kv
      by_cases hk : k = u
      · subst hk
        simp [findEntry, setEntry, h2]
      · simp [findEntry, setEntry, hk, ih]

@[simp]
theorem transcriptOf_setEntry_self (c : Cache) (u : UserId) (t : Transcript) :
    transcriptOf (setEntry c u t) u = t := by
  simp [transcriptOf]

theorem transcriptOf_setEntry_ne (c : Cache) (u v : UserId) (t : Transcript)
    (h : v ≠ u) : transcriptOf (setEntry c u t) v = transcriptOf c v := by
  simp [transcriptOf, findEntry_setEntry_ne c u v t h]

@[simp]
theorem endsInUser_concat (t : Transcript) (x : ChatTurn) :
    endsInUser (t ++ [x]) = (x.role == Role.user) := by
  simp [endsInUser]

@[simp]
theorem rollbackLastUserTurn_concat_user (t : Transcript) (m : String) :
    rollbackLastUserTurn (t ++ [⟨Role.user, m⟩]) = t := by
  simp [rollbackLastUserTurn]

@[simp]
theorem rollbackLastUserTurn_singleton_user (m : String) :
    rollbackLastUserTurn [⟨Role.user, m⟩] = [] := by
  simpa using rollbackLastUserTurn_concat_user [] m

theorem rollbackLastUserTurn_of_not_endsInUser (t : Transcript)
    (h : endsInUser t = false) : rollbackLastUserTurn t = t := by
  unfold rollbackLastUserTurn
  unfold endsInUser at h
  cases hl : t.getLast? with
  | none => simp
  | some turn =>
      rw [hl] at h
      have h2 : turn.role ≠ Role.user := by simpa using h
      simp [h2]

/-! ### Characterisation of `chat_api`'s effect on the caller's transcript -/

/-- The transcript stored for the caller after the success path of
`chat_api` (ai.py lines 101-111), as a function of the pre-call transcript:
append the user and assistant turns, then keep the last `MAX_MESSAGES`
entries when the bound is exceeded. -/
def successTranscript (t : Transcript) (msg reply : String) : Transcript :=
  let conv := t ++ [⟨Role.user, msg⟩] ++ [⟨Role.assistant, reply⟩]
  if conv.length > MAX_MESSAGES then
    conv.drop (conv.length - MAX_MESSAGES)
  else conv

/-- On the unique success path (HTTP 200, non-empty content), the handler
returns the content and stores `successTranscript` of the pre-call
transcript. -/
theorem chat_api_success (c : Cache) (u : UserId) (msg reply : String)
    (hmsg : msg ≠ "") (hreply : reply ≠ "") :
    (chat_api c u msg (InferOutcome.response 200 reply)).1 =
        ChatResult.ok reply ∧
    transcriptOf (chat_api c u msg (InferOutcome.response 200 reply)).2 u =
      successTranscript (transcriptOf c u) msg reply := by
  unfold chat_api get_user_conversation successTranscript
  cases hf : findEntry c u with
  | none =>
      simp [hf, hmsg, hreply, transcriptOf, MAX_MESSAGES]
  | some t =>
      by_cases hlen : MAX_MESSAGES < t.length + 1 + 1
      · simp [hf, hmsg, hreply, hlen, transcriptOf]
      · simp [hf, hmsg, hreply, hlen, transcriptOf]

/-- On every failure outcome of the inference call, the stored transcript is
restored to its pre-call value (the speculative user turn is popped). -/
theorem chat_api_failure (c : Cache) (u : UserId) (msg : String)
    (o : InferOutcome) (hmsg : msg ≠ "")
    (hfail : o.isSuccess = false) :
    transcriptOf (chat_api c u msg o).2 u = transcriptOf c u := by
  unfold chat_api get_user_conversation
  cases hf : findEntry c u with
  | none =>
      cases o with
      | response status content =>
          by_cases hs : status = 200
          · subst hs
            have hc : content = "" := by
              simpa [InferOutcome.isSuccess] using hfail
            subst hc
            simp [hmsg, transcriptOf, hf]
          · simp [hmsg, hs, transcriptOf, hf]
      | timeout => simp [hmsg, transcriptOf, hf]
      | connectionError => simp [hmsg, transcriptOf, hf]
      | otherError m => simp [hmsg, transcriptOf, hf]
  | some t =>
      cases o with
      | response status content =>
          by_cases hs : status = 200
          · subst hs
            have hc : content = "" := by
              simpa [InferOutcome.isSuccess] using hfail
            subst hc
            simp [hmsg, transcriptOf, hf]
          · simp [hmsg, hs, transcriptOf, hf]
      | timeout => simp [hmsg, transcriptOf, hf]
      | connectionError => simp [hmsg, transcriptOf, hf]
      | otherError m => simp [hmsg, transcriptOf, hf]

/-- The handler short-circuits on an empty message, after
`get_user_conversation` has already run: the result is `invalidInput` and
the cache is the one `get_user_conversation` produced. -/
theorem chat_api_invalid (c : Cache) (u : UserId) (o : InferOutcome) :
    (chat_api c u "" o).1 = ChatResult.invalidInput ∧
    (chat_api c u "" o).2 =
      (match findEntry c u with
       | some _ => c
       | none => setEntry c u []) := by
  unfold chat_api get_user_conversation
  cases hf : findEntry c u <;> simp [hf]

/-- On an empty message, the observable transcript of every user is
unchanged. -/
theorem chat_api_invalid_transcript (c : Cache) (u : UserId)
    (o : InferOutcome) (v : UserId) :
    transcriptOf (chat_api c u "" o).2 v = transcriptOf c v := by
  rw [(chat_api_invalid c u o).2]
  cases hf : findEntry c u with
  | none =>
      by_cases hv : v = u
      · subst hv
        simp [transcriptOf, hf]
      · simp [transcriptOf, findEntry_setEntry_ne c u v [] hv]
  | some t => simp [hf]

theorem isSuccess_iff (o : InferOutcome) :
    o.isSuccess = true ↔
      ∃ content, o = InferOutcome.response 200 content ∧ content ≠ "" := by
  cases o <;> simp [InferOutcome.isSuccess] <;> aesop

/-- Length of the post-success transcript: the pre-call length plus two,
capped at `MAX_MESSAGES`. -/
theorem successTranscript_length (t : Transcript) (msg reply : String) :
    (successTranscript t msg reply).length =
      min (t.length + 2) MAX_MESSAGES := by
  have hM : MAX_MESSAGES = 24 := rfl
  unfold successTranscript
  by_cases h : MAX_MESSAGES < t.length + 1 + 1 <;> simp [h] <;> omega

/-- When the appended transcript exceeds the bound, the stored result is
exactly its last `MAX_MESSAGES` entries. -/
theorem successTranscript_of_gt (t : Transcript) (msg reply : String)
    (h : (t ++ [ChatTurn.mk Role.user msg,
        ChatTurn.mk Role.assistant reply]).length > MAX_MESSAGES) :
    successTranscript t msg reply =
      (t ++ [ChatTurn.mk Role.user msg,
        ChatTurn.mk Role.assistant reply]).drop
        ((t ++ [ChatTurn.mk Role.user msg,
          ChatTurn.mk Role.assistant reply]).length - MAX_MESSAGES) := by
  have hlen : (t ++ [ChatTurn.mk Role.user msg,
      ChatTurn.mk Role.assistant reply]).length = t.length + 2 := by simp
  rw [hlen] at h
  have h' : MAX_MESSAGES < t.length + 1 + 1 := by omega
  unfold successTranscript
  rw [hlen]
  simp [h']

/-- When the appended transcript stays within the bound, nothing is
dropped. -/
theorem successTranscript_of_le (t : Transcript) (msg reply : String)
    (h : (t ++ [ChatTurn.mk Role.user msg,
        ChatTurn.mk Role.assistant reply]).length ≤ MAX_MESSAGES) :
    successTranscript t msg reply =
      t ++ [ChatTurn.mk Role.user msg, ChatTurn.mk Role.assistant reply] := by
  have hlen : (t ++ [ChatTurn.mk Role.user msg,
      ChatTurn.mk Role.assistant reply]).length = t.length + 2 := by simp
  rw [hlen] at h
  have h' : ¬ MAX_MESSAGES < t.length + 1 + 1 := by omega
  unfold successTranscript
  simp [h']

theorem getLast?_of_drop_eq_pair (s : Transcript) (k : Nat)
    (x y : ChatTurn) (h : s.drop k = [x, y]) : s.getLast? = some y := by
  have hs : s = s.take k ++ [x, y] := by rw [← h, List.take_append_drop]
  rw [hs, show s.take k ++ [x, y] = (s.take k ++ [x]) ++ [y] by simp]
  exact List.getLast?_concat _

theorem drop_sub_two_of_append_pair (l : Transcript) (x y : ChatTurn)
    (k : Nat) (hk : k ≤ l.length) :
    ((l ++ [x, y]).drop k).drop (((l ++ [x, y]).drop k).length - 2) =
      [x, y] := by
  rw [List.drop_drop, List.length_drop]
  have hc : (l ++ [x, y]).length = l.length + 2 := by simp
  rw [hc, show k + (l.length + 2 - k - 2) = l.length from by omega]
  exact List.drop_left' rfl

/-- The last two entries of the post-success transcript are the user turn
followed by the assistant turn. -/
theorem successTranscript_lastTwo (t : Transcript) (msg reply : String) :
    (successTranscript t msg reply).drop
        ((successTranscript t msg reply).length - 2) =
      [ChatTurn.mk Role.user msg, ChatTurn.mk Role.assistant reply] := by
  have hM : MAX_MESSAGES = 24 := rfl
  have hlen : (t ++ [ChatTurn.mk Role.user msg,
      ChatTurn.mk Role.assistant reply]).length = t.length + 2 := by simp
  by_cases h : (t ++ [ChatTurn.mk Role.user msg,
      ChatTurn.mk Role.assistant reply]).length > MAX_MESSAGES
  · rw [successTranscript_of_gt t msg reply h, hlen]
    refine drop_sub_two_of_append_pair t _ _ _ ?_
    rw [hlen] at h
    omega
  · rw [successTranscript_of_le t msg reply (by omega)]
    simpa using drop_sub_two_of_append_pair t
      (ChatTurn.mk Role.user msg) (ChatTurn.mk Role.assistant reply) 0
      (Nat.zero_le _)

/-- The post-success transcript always ends in the assistant turn. -/
theorem endsInUser_successTranscript (t : Transcript) (msg reply : String) :
    endsInUser (successTranscript t msg reply) = false := by
  have h := successTranscript_lastTwo t msg reply
  have hl := getLast?_of_drop_eq_pair _ _ _ _ h
  simp [endsInUser, hl]

/-! ### Claim theorems -/

/-- C1: for every failure outcome of the inference call (empty model
response, non-200 upstream status, timeout, connection failure, or any
other exception) on a transcript that does not already end in a user turn,
the stored transcript after `chat_api` equals the stored transcript before
it — in particular the lengths are equal: the speculative user turn is
removed before the error is returned. -/
theorem failure_restores_transcript (c : Cache) (u : UserId) (msg : String)
    (o : InferOutcome) (hmsg : msg ≠ "")
    (hfail : o.isSuccess = false)
    (hend : endsInUser (transcriptOf c u) = false) :
    transcriptOf (chat_api c u msg o).2 u = transcriptOf c u ∧
    (transcriptOf (chat_api c u msg o).2 u).length =
      (transcriptOf c u).length := by
  have h := chat_api_failure c u msg o hmsg hfail
  exact ⟨h, by rw [h]⟩

/-- Witness for C1 at a concrete input: one stored assistant turn, a timeout
outcome. -/
theorem failure_restores_transcript_witness :
    transcriptOf
        (chat_api [("u", [⟨Role.assistant, "a"⟩])] "u" "m"
          InferOutcome.timeout).2 "u" =
      transcriptOf [("u", [⟨Role.assistant, "a"⟩])] "u" ∧
    (transcriptOf
        (chat_api [("u", [⟨Role.assistant, "a"⟩])] "u" "m"
          InferOutcome.timeout).2 "u").length =
      (transcriptOf [("u", [⟨Role.assistant, "a"⟩])] "u").length :=
  failure_restores_transcript [("u", [⟨Role.assistant, "a"⟩])] "u" "m"
    InferOutcome.timeout (by decide) (by decide) (by decide)

/-- C7: the rollback step removes the last turn when and only when its role
is `user`, and is a no-op on an empty transcript or on a transcript ending
in a non-user turn (it is a total function, so it cannot fail). -/
theorem rollbackLastUserTurn_spec :
    (∀ (t : Transcript) (m : String),
        rollbackLastUserTurn (t ++ [⟨Role.user, m⟩]) = t) ∧
    (∀ t : Transcript,
        endsInUser t = false → rollbackLastUserTurn t = t) ∧
    rollbackLastUserTurn [] = [] := by
  refine ⟨fun t m => rollbackLastUserTurn_concat_user t m,
    fun t h => rollbackLastUserTurn_of_not_endsInUser t h, rfl⟩

/-- Witness for C7 at concrete inputs: a transcript ending in an assistant
turn is untouched; one ending in a user turn loses exactly that turn. -/
theorem rollbackLastUserTurn_spec_witness :
    rollbackLastUserTurn [⟨Role.assistant, "a"⟩] = [⟨Role.assistant, "a"⟩] ∧
    rollbackLastUserTurn [⟨Role.assistant, "a"⟩, ⟨Role.user, "q"⟩] =
      [⟨Role.assistant, "a"⟩] :=
  ⟨rollbackLastUserTurn_spec.2.1 [⟨Role.assistant, "a"⟩] (by decide),
   rollbackLastUserTurn_spec.1 [⟨Role.assistant, "a"⟩] "q"⟩

/-- C8: `clear` is idempotent — for every user and every starting cache,
the transcript is empty after the first `clear` and after a second `clear`,
and `get` after `clear` returns the empty sequence. -/
theorem clear_idempotent (c : Cache) (u : UserId) :
    transcriptOf (clear_user_conversation c u) u = [] ∧
    transcriptOf
      (clear_user_conversation (clear_user_conversation c u) u) u = [] ∧
    (get_user_conversation (clear_user_conversation c u) u).1 = [] := by
  cases hf : findEntry c u with
  | none =>
      simp [clear_user_conversation, get_user_conversation, transcriptOf, hf]
  | some t =>
      simp [clear_user_conversation, get_user_conversation, transcriptOf, hf]

/-- A stored transcript of twelve user/assistant exchanges (24 turns), as
reached by twelve successful sends from an empty conversation. -/
def fullTranscript : Transcript :=
  (List.replicate 12
    [ChatTurn.mk Role.user "q", ChatTurn.mk Role.assistant "a"]).flatten

/-- C3 counterexample: with a stored transcript already at 24 turns, a
successful send leaves the length at 24 (truncation fires), not 24 + 2 —
so a successful send does not always increase the length by exactly 2. -/
theorem success_grows_by_two_counterexample :
    (transcriptOf [("u", fullTranscript)] "u").length = 24 ∧
    (transcriptOf (chat_api [("u", fullTranscript)] "u" "m"
        (InferOutcome.response 200 "r")).2 "u").length = 24 ∧
    (24 : Nat) ≠ 24 + 2 := by
  refine ⟨by decide, by decide, by decide⟩

/-- C3 amended: for every non-empty message, a successful send makes the
stored length `min (pre + 2) MAX_MESSAGES` — exactly `pre + 2` whenever
that fits within `MAX_MESSAGES` — and the last two turns of the result are
the user turn followed by the assistant turn. -/
theorem success_appends_two_turns (c : Cache) (u : UserId)
    (msg reply : String) (hmsg : msg ≠ "") (hreply : reply ≠ "") :
    (transcriptOf (chat_api c u msg
        (InferOutcome.response 200 reply)).2 u).length =
      min ((transcriptOf c u).length + 2) MAX_MESSAGES ∧
    ((transcriptOf c u).length + 2 ≤ MAX_MESSAGES →
      (transcriptOf (chat_api c u msg
          (InferOutcome.response 200 reply)).2 u).length =
        (transcriptOf c u).length + 2) ∧
    (transcriptOf (chat_api c u msg
        (InferOutcome.response 200 reply)).2 u).drop
        ((transcriptOf (chat_api c u msg
          (InferOutcome.response 200 reply)).2 u).length - 2) =
      [ChatTurn.mk Role.user msg, ChatTurn.mk Role.assistant reply] := by
  have hs := (chat_api_success c u msg reply hmsg hreply).2
  rw [hs]
  refine ⟨successTranscript_length _ _ _, ?_, successTranscript_lastTwo _ _ _⟩
  intro hle
  rw [successTranscript_length]
  omega

/-- Witness for C3's amended statement: a first send from an empty
transcript stores exactly two more turns. -/
theorem success_appends_two_turns_witness :
    (transcriptOf (chat_api ([] : Cache) "u" "m"
        (InferOutcome.response 200 "r")).2 "u").length =
      (transcriptOf ([] : Cache) "u").length + 2 :=
  (success_appends_two_turns [] "u" "m" "r" (by decide) (by decide)).2.1
    (by decide)

/-- C4: after every successful send the stored length is at most
`MAX_MESSAGES`; and when the pre-truncation sequence exceeds
`MAX_MESSAGES`, the stored transcript is exactly its last `MAX_MESSAGES`
turns, in order. -/
theorem truncation_law (c : Cache) (u : UserId) (msg reply : String)
    (hmsg : msg ≠ "") (hreply : reply ≠ "") :
    (transcriptOf (chat_api c u msg
        (InferOutcome.response 200 reply)).2 u).length ≤ MAX_MESSAGES ∧
    ((transcriptOf c u ++ [ChatTurn.mk Role.user msg,
        ChatTurn.mk Role.assistant reply]).length > MAX_MESSAGES →
      transcriptOf (chat_api c u msg
          (InferOutcome.response 200 reply)).2 u =
        (transcriptOf c u ++ [ChatTurn.mk Role.user msg,
          ChatTurn.mk Role.assistant reply]).drop
          ((transcriptOf c u ++ [ChatTurn.mk Role.user msg,
            ChatTurn.mk Role.assistant reply]).length - MAX_MESSAGES)) := by
  have hs := (chat_api_success c u msg reply hmsg hreply).2
  rw [hs]
  constructor
  · rw [successTranscript_length]
    omega
  · intro hgt
    exact successTranscript_of_gt _ _ _ hgt

/-- Witness for C4 at a concrete input where truncation fires: 24 stored
turns plus a successful send. -/
theorem truncation_law_witness :
    (transcriptOf (chat_api [("u", fullTranscript)] "u" "m"
        (InferOutcome.response 200 "r")).2 "u").length ≤ MAX_MESSAGES ∧
    transcriptOf (chat_api [("u", fullTranscript)] "u" "m"
        (InferOutcome.response 200 "r")).2 "u" =
      (transcriptOf [("u", fullTranscript)] "u" ++
        [ChatTurn.mk Role.user "m", ChatTurn.mk Role.assistant "r"]).drop
        ((transcriptOf [("u", fullTranscript)] "u" ++
          [ChatTurn.mk Role.user "m",
            ChatTurn.mk Role.assistant "r"]).length - MAX_MESSAGES) :=
  ⟨(truncation_law [("u", fullTranscript)] "u" "m" "r"
      (by decide) (by decide)).1,
   (truncation_law [("u", fullTranscript)] "u" "m" "r"
      (by decide) (by decide)).2 (by decide)⟩

/-- C5: if the stored transcript does not end in a user turn before the
call, then after `chat_api` returns — successfully or with any failure, and
for any posted message — the stored transcript still does not end in a
dangling user turn. -/
theorem no_dangling_user_turn (c : Cache) (u : UserId)
    (hend : endsInUser (transcriptOf c u) = false) :
    ∀ (msg : String) (o : InferOutcome),
      endsInUser (transcriptOf (chat_api c u msg o).2 u) = false := by
  intro msg o
  by_cases hmsg : msg = ""
  · subst hmsg
    rw [chat_api_invalid_transcript]
    exact hend
  · by_cases hsucc : o.isSuccess = true
    · obtain ⟨reply, rfl, hreply⟩ := (isSuccess_iff o).mp hsucc
      rw [(chat_api_success c u msg reply hmsg hreply).2]
      exact endsInUser_successTranscript _ _ _
    · rw [chat_api_failure c u msg o hmsg (by simpa using hsucc)]
      exact hend

/-- Witness for C5 at a concrete input: empty transcript, timeout
outcome. -/
theorem no_dangling_user_turn_witness :
    endsInUser (transcriptOf (chat_api ([] : Cache) "u" "m"
        InferOutcome.timeout).2 "u") = false :=
  no_dangling_user_turn [] "u" (by decide) "m" InferOutcome.timeout

/-- Number of turns with a given role in a transcript. -/
def countRole (t : Transcript) (r : Role) : Nat :=
  (t.filter (fun turn => turn.role == r)).length

theorem countRole_drop_le (l : Transcript) (k : Nat) (r : Role) :
    countRole (l.drop k) r ≤ countRole l r := by
  conv_rhs => rw [← List.take_append_drop k l]
  simp only [countRole, List.filter_append, List.length_append]
  omega

theorem countRole_successTranscript_system (t : Transcript)
    (msg reply : String) (h : countRole t Role.system = 0) :
    countRole (successTranscript t msg reply) Role.system = 0 := by
  have hfull : countRole (t ++ [ChatTurn.mk Role.user msg,
      ChatTurn.mk Role.assistant reply]) Role.system = 0 := by
    simp only [countRole, List.filter_append, List.length_append] at h ⊢
    simp [h]
  by_cases hgt : (t ++ [ChatTurn.mk Role.user msg,
      ChatTurn.mk Role.assistant reply]).length > MAX_MESSAGES
  · rw [successTranscript_of_gt t msg reply hgt]
    have hle := countRole_drop_le (t ++ [ChatTurn.mk Role.user msg,
      ChatTurn.mk Role.assistant reply])
      ((t ++ [ChatTurn.mk Role.user msg,
        ChatTurn.mk Role.assistant reply]).length - MAX_MESSAGES) Role.system
    omega
  · rw [successTranscript_of_le t msg reply (by omega)]
    exact hfull

/-- No execution of `chat_api` ever introduces a system turn into the
stored transcript. -/
theorem countRole_system_preserved (c : Cache) (u : UserId) (msg : String)
    (o : InferOutcome)
    (h : countRole (transcriptOf c u) Role.system = 0) :
    countRole (transcriptOf (chat_api c u msg o).2 u) Role.system = 0 := by
  by_cases hmsg : msg = ""
  · subst hmsg
    rw [chat_api_invalid_transcript]
    exact h
  · by_cases hsucc : o.isSuccess = true
    · obtain ⟨reply, rfl, hreply⟩ := (isSuccess_iff o).mp hsucc
      rw [(chat_api_success c u msg reply hmsg hreply).2]
      exact countRole_successTranscript_system _ _ _ h
    · rw [chat_api_failure c u msg o hmsg (by simpa using hsucc)]
      exact h

/-- C2 counterexample: the first successful message stores exactly
`[user, assistant]` — two turns, not the claimed three-turn
`[system, user, assistant]` sequence. -/
theorem first_message_transcript_counterexample :
    transcriptOf (chat_api ([] : Cache) "u" "hello"
        (InferOutcome.response 200 "hi")).2 "u" =
      [ChatTurn.mk Role.user "hello", ChatTurn.mk Role.assistant "hi"] ∧
    (transcriptOf (chat_api ([] : Cache) "u" "hello"
        (InferOutcome.response 200 "hi")).2 "u").length ≠ 3 := by
  refine ⟨by decide, by decide⟩

/-- C2 amended: the system turn is synthesized only into the outbound
request message list — at position 0, and only when the stored transcript
was otherwise empty at the first user turn — never into the stored
transcript.  After a successful first message the stored transcript is
exactly `[user, assistant]`, and a transcript with no system turn never
acquires one through `chat_api`. -/
theorem system_turn_request_only (c : Cache) (u : UserId)
    (msg reply : String) (hmsg : msg ≠ "") (hreply : reply ≠ "")
    (hempty : transcriptOf c u = []) :
    transcriptOf (chat_api c u msg
        (InferOutcome.response 200 reply)).2 u =
      [ChatTurn.mk Role.user msg, ChatTurn.mk Role.assistant reply] ∧
    requestMessages (transcriptOf c u ++ [ChatTurn.mk Role.user msg]) =
      [systemTurn, ChatTurn.mk Role.user msg] ∧
    (∀ t : Transcript, t ≠ [] →
      requestMessages (t ++ [ChatTurn.mk Role.user msg]) =
        t ++ [ChatTurn.mk Role.user msg]) ∧
    (∀ (d : Cache) (v : UserId) (m : String) (o : InferOutcome),
      countRole (transcriptOf d v) Role.system = 0 →
      countRole (transcriptOf (chat_api d v m o).2 v) Role.system = 0) := by
  refine ⟨?_, ?_, ?_, fun d v m o h => countRole_system_preserved d v m o h⟩
  · rw [(chat_api_success c u msg reply hmsg hreply).2, hempty]
    rw [successTranscript_of_le [] msg reply (by simp [MAX_MESSAGES])]
    simp
  · rw [hempty]
    simp [requestMessages]
  · intro t ht
    simp [requestMessages, ht]

/-- Witness for C2's amended statement at the spec's own scenario: first
message "hello", reply "hi". -/
theorem system_turn_request_only_witness :
    transcriptOf (chat_api ([] : Cache) "u" "hello"
        (InferOutcome.response 200 "hi")).2 "u" =
      [ChatTurn.mk Role.user "hello", ChatTurn.mk Role.assistant "hi"] ∧
    requestMessages (transcriptOf ([] : Cache) "u" ++
        [ChatTurn.mk Role.user "hello"]) =
      [systemTurn, ChatTurn.mk Role.user "hello"] :=
  ⟨(system_turn_request_only [] "u" "hello" "hi"
      (by decide) (by decide) (by decide)).1,
   (system_turn_request_only [] "u" "hello" "hi"
      (by decide) (by decide) (by decide)).2.1⟩

/-- C6 counterexample: an empty message from a user with no cache entry is
rejected with `invalidInput`, yet the store map changes — a fresh empty
entry for that user is created by the read that precedes the check. -/
theorem invalid_input_store_change_counterexample :
    (chat_api ([] : Cache) "u" "" InferOutcome.timeout).1 =
      ChatResult.invalidInput ∧
    (chat_api ([] : Cache) "u" "" InferOutcome.timeout).2 = [("u", [])] ∧
    ([("u", [])] : Cache) ≠ ([] : Cache) := by
  refine ⟨by decide, by decide, by decide⟩

/-- C6 amended: an empty message always fails with `invalidInput`
(HTTP 400) and no transcript content changes for any user and no turn is
appended; but the store read precedes the check, so for a caller with no
entry a fresh empty entry is inserted into the map (for a caller with an
entry, the map is exactly unchanged). -/
theorem invalid_input_amended (c : Cache) (u : UserId) (o : InferOutcome) :
    (chat_api c u "" o).1 = ChatResult.invalidInput ∧
    httpStatus (chat_api c u "" o).1 = 400 ∧
    (∀ v : UserId, transcriptOf (chat_api c u "" o).2 v = transcriptOf c v) ∧
    (findEntry c u ≠ none → (chat_api c u "" o).2 = c) ∧
    (findEntry c u = none → (chat_api c u "" o).2 = setEntry c u []) := by
  have h := chat_api_invalid c u o
  refine ⟨h.1, by rw [h.1]; rfl, fun v => chat_api_invalid_transcript c u o v,
    ?_, ?_⟩
  · intro hne
    rw [h.2]
    cases hf : findEntry c u with
    | none => exact absurd hf hne
    | some t => rfl
  · intro hnone
    rw [h.2, hnone]

/-- Witness for C6's amended statement: a present entry is left exactly
unchanged by an empty-message request. -/
theorem invalid_input_amended_witness :
    (chat_api ([("u", [ChatTurn.mk Role.assistant "a"])] : Cache) "u" ""
        InferOutcome.timeout).2 = [("u", [ChatTurn.mk Role.assistant "a"])] :=
  (invalid_input_amended [("u", [ChatTurn.mk Role.assistant "a"])] "u"
      InferOutcome.timeout).2.2.2.1 (by decide)

/-- C10: for a user with no entry, a `get` — directly, through the history
handler, or as the read the chat handler performs even on an invalid-input
request — inserts a fresh empty-transcript entry into the map, whereas
`clear` leaves the map exactly unchanged and creates no entry. -/
theorem absent_user_store_effects (c : Cache) (u : UserId)
    (habs : findEntry c u = none) :
    findEntry (get_user_conversation c u).2 u = some [] ∧
    findEntry (get_chat_history c u).2 u = some [] ∧
    (∀ o : InferOutcome, findEntry (chat_api c u "" o).2 u = some []) ∧
    clear_user_conversation c u = c := by
  have hget : (get_user_conversation c u).2 = setEntry c u [] := by
    unfold get_user_conversation
    rw [habs]
  refine ⟨?_, ?_, ?_, ?_⟩
  · rw [hget]
    exact findEntry_setEntry_self c u []
  · unfold get_chat_history
    rw [hget]
    exact findEntry_setEntry_self c u []
  · intro o
    rw [(chat_api_invalid c u o).2, habs]
    exact findEntry_setEntry_self c u []
  · unfold clear_user_conversation
    rw [habs]

/-- Witness for C10 at the empty store. -/
theorem absent_user_store_effects_witness :
    findEntry (get_user_conversation ([] : Cache) "u").2 "u" = some [] ∧
    clear_user_conversation ([] : Cache) "u" = ([] : Cache) :=
  ⟨(absent_user_store_effects [] "u" (by decide)).1,
   (absent_user_store_effects [] "u" (by decide)).2.2.2⟩

end AIDashboard
